import Mathlib

/-
Verification of the Bebop document rendering pipeline against its
natural-language specification.

Shallow embedding conventions:
- A Python `str` is modelled as a `List Char` (named `Str` below); `len`
  is `List.length`.
- Python `int` is modelled as `Int` where negative values are reachable
  (the scroll buffer), and as `Nat` where the source only ever handles
  sizes (widths, indents, lengths).
- Python's negative-index slicing (`s[:i]`, `s[i:]` with `i < 0`) is
  modelled by `pyTake` / `pyDrop`.
- The `while` loop of `wrap_words` (src/bebop/metalines.py) does not
  terminate for every input (e.g. `width = 1`, `indent = 0`, a 2-char
  word); it is modelled with explicit fuel `word.length + 2`, which is
  enough iterations to agree with the source wherever the source
  terminates.
- Fallible dictionary/regex accesses are modelled with `Option`.
-/

namespace Bebop

/-- A Python string, as a list of characters. -/
abbrev Str := List Char

/-- Python whitespace test covering `string.whitespace` / `\s` for the
ASCII documents at hand: space, tab, newline, carriage return, vertical
tab, form feed. -/
def isPySpace (c : Char) : Bool :=
  c == ' ' || c == '\t' || c == '\n' || c == '\r' ||
  c == Char.ofNat 11 || c == Char.ofNat 12

/-- Python `str.rstrip()`. -/
def rstripLine (l : Str) : Str :=
  (l.reverse.dropWhile isPySpace).reverse

/-- Python `str.lstrip()`. -/
def lstripLine (l : Str) : Str :=
  l.dropWhile isPySpace

/-- A run of `n` spaces, Python `" " * n`. -/
def spaces (n : Nat) : Str :=
  List.replicate n ' '

/-- Python slice `s[:i]`, including the negative-index case. -/
def pyTake (s : Str) (i : Int) : Str :=
  if 0 ≤ i then s.take i.toNat else s.take (s.length - (-i).toNat)

/-- Python slice `s[i:]`, including the negative-index case. -/
def pyDrop (s : Str) (i : Int) : Str :=
  if 0 ≤ i then s.drop i.toNat else s.drop (s.length - (-i).toNat)

/-! ## src/bebop/gemtext.py -/

/-- The parser elements of src/bebop/gemtext.py: Paragraph, Title, Link,
Preformatted, Blockquote, ListItem.  The `text` field of a link is
`Option Str` because `parse_gemtext` stores `match_dict.get("text", "")`,
which is Python `None` when the trailing-text group did not participate
(the key is present in `groupdict()`, so the `""` default never applies).
The `ident` field is the link id read by `format_link`
(src/bebop/metalines.py); the code assigning it is not under src/, see
`assignLinkIds` below.  The parser itself leaves it at 0. -/
inductive Element where
  | paragraph (text : Str)
  | title (level : Nat) (text : Str)
  | link (url : Str) (text : Option Str) (ident : Nat)
  | preformatted (lines : List Str)
  | blockquote (text : Str)
  | listItem (text : Str)
  deriving DecidableEq, Repr

/-- `Title.RE = re.compile(r"(#{1,3})\s+(.+)")`, used via `re.match`.
A leading run of more than three `#` never matches (after backtracking
to three or fewer hashes the next character is still `#`, not `\s`).
Otherwise the hash run must be followed by at least one whitespace
character; `(.+)` takes everything after the maximal whitespace run,
except that when nothing follows it, `\s+` backtracks and `(.+)`
captures the last whitespace character (possible only for lines ending
in whitespace, which `parse_gemtext` never passes in). -/
def matchTitle (l : Str) : Option (Nat × Str) :=
  let run := (l.takeWhile (fun c => c == '#')).length
  if run = 0 ∨ 3 < run then none
  else
    let rest := l.drop run
    let ws := rest.takeWhile isPySpace
    if ws.length = 0 then none
    else
      let t := rest.dropWhile isPySpace
      if t ≠ [] then some (run, t)
      else if 2 ≤ ws.length then some (run, [rest.getLastD ' '])
      else none

/-- `Link.RE = re.compile(r"=>\s*(?P<url>\S+)(\s+(?P<text>.+))?")`, used
via `re.match`.  The url is the maximal non-space run after `=>` and
optional whitespace; the optional group yields the trailing text after
at least one whitespace character, or `None` when absent (with the same
end-of-line backtracking note as in `matchTitle`). -/
def matchLink (l : Str) : Option (Str × Option Str) :=
  if l.take 2 = ['=', '>'] then
    let rest := (l.drop 2).dropWhile isPySpace
    let url := rest.takeWhile (fun c => !(isPySpace c))
    if url = [] then none
    else
      let rest2 := rest.drop url.length
      let ws := rest2.takeWhile isPySpace
      let t := rest2.dropWhile isPySpace
      if ws = [] then some (url, none)
      else if t ≠ [] then some (url, some t)
      else if 2 ≤ ws.length then some (url, some [rest2.getLastD ' '])
      else some (url, none)
  else none

/-- `Blockquote.RE = re.compile(r">\s*(.*)")`, used via `re.match`:
any line starting with `>`, text is the rest after optional whitespace. -/
def matchBlockquote (l : Str) : Option Str :=
  match l with
  | c :: rest => if c = '>' then some (rest.dropWhile isPySpace) else none
  | [] => none

/-- `ListItem.RE = re.compile(r"\*\s(.*)")`, used via `re.match`:
a `*`, exactly one whitespace character, then the rest. -/
def matchListItem (l : Str) : Option Str :=
  match l with
  | c :: d :: rest => if c = '*' ∧ isPySpace d then some rest else none
  | _ => none

/-- The three-backtick fence `Preformatted.FENCE`. -/
def FENCE : Str := [Char.ofNat 96, Char.ofNat 96, Char.ofNat 96]

/-- The loop body of `parse_gemtext` (src/bebop/gemtext.py, lines
50-97).  `els` is the `elements` list built so far, `pre` the current
open `Preformatted` block (`None` when no fence is open).  Each line is
rstripped; empty lines are skipped; then the classifiers run in source
order: Title, Link, fence toggle, Blockquote, ListItem; the fallback
appends to the open preformatted block or emits a Paragraph.  An
unterminated fence at end of input is dropped. -/
def parseGo (els : List Element) (pre : Option (List Str)) :
    List Str → List Element
  | [] => els
  | l :: rest =>
    let line := rstripLine l
    if line = [] then parseGo els pre rest
    else
      match matchTitle line with
      | some (lev, text) => parseGo (els ++ [.title lev text]) pre rest
      | none =>
        match matchLink line with
        | some (url, text) => parseGo (els ++ [.link url text 0]) pre rest
        | none =>
          if line.take 3 = FENCE then
            match pre with
            | some plines => parseGo (els ++ [.preformatted plines]) none rest
            | none => parseGo els (some []) rest
          else
            match matchBlockquote line with
            | some text => parseGo (els ++ [.blockquote text]) pre rest
            | none =>
              match matchListItem line with
              | some text => parseGo (els ++ [.listItem text]) pre rest
              | none =>
                match pre with
                | some plines => parseGo els (some (plines ++ [line])) rest
                | none => parseGo (els ++ [.paragraph line]) pre rest

/-- `parse_gemtext(text)` of src/bebop/gemtext.py, taking the document
as its list of lines (the result of Python `text.splitlines()`). -/
def parse_gemtext (doc : List Str) : List Element :=
  parseGo [] none doc

/-! ## src/bebop/metalines.py -/

/-- `LineType` of src/bebop/metalines.py (an `IntEnum` there). -/
inductive LineType where
  | NONE
  | TITLE_1
  | TITLE_2
  | TITLE_3
  | PARAGRAPH
  | LINK
  | PREFORMATTED
  | BLOCKQUOTE
  | LIST_ITEM
  | ERROR
  deriving DecidableEq, Repr

/-- `LineType(n)` for the numeric values of the `IntEnum`; `format_title`
only ever applies it to parsed title levels 1-3 (other arguments raise
`ValueError` in the source, mapped to `ERROR` here as an unreachable
default). -/
def lineTypeOfLevel : Nat → LineType
  | 0 => .NONE
  | 1 => .TITLE_1
  | 2 => .TITLE_2
  | 3 => .TITLE_3
  | 4 => .PARAGRAPH
  | 5 => .LINK
  | 6 => .PREFORMATTED
  | 7 => .BLOCKQUOTE
  | 8 => .LIST_ITEM
  | 9 => .ERROR
  | _ => .ERROR

/-- `RenderOptions` of src/bebop/metalines.py; `mode` is a string there
(`"fancy"` or `"dumb"`; the code only tests equality with `"dumb"`). -/
structure RenderOptions where
  width : Nat
  mode : Str
  bullet : Str
  deriving DecidableEq, Repr

/-- The `lextra` dict attached to the first metaline of a link. -/
structure LinkExtra where
  url : Str
  link_id : Nat
  deriving DecidableEq, Repr

/-- A metaline tuple `(ltype, line, lextra)`. -/
abbrev Metaline := LineType × Str × Option LinkExtra

/-- `JOIN_CHAR = "-"`. -/
def JOIN_CHAR : Char := '-'

/-- The `pos`-advancing loop of `_explode_words` with `_find_next_sep`
(src/bebop/metalines.py): the accumulator `w` is the pending word
`text[pos:pos+sep_index]` scanned so far.  At the first separator of
`SPLIT_CHARS = " \t-"`, space and tab (the whitespace separators) are
emitted as standalone one-character words after the pending word, while
a hyphen is appended to the pending word; when no separator remains the
pending rest is emitted as the final word. -/
def explodeAux (w : Str) : Str → List Str
  | [] => [w]
  | c :: rest =>
    if c == ' ' || c == '\t' then w :: [c] :: explodeAux [] rest
    else if c == '-' then (w ++ [c]) :: explodeAux [] rest
    else explodeAux (w ++ [c]) rest

/-- `_explode_words(text)` of src/bebop/metalines.py. -/
def explodeWords (t : Str) : List Str :=
  explodeAux [] t

/-- The `while word_len > width` hard-split loop of `wrap_words`
(src/bebop/metalines.py, lines 199-205), with explicit fuel.  Each
iteration emits `" " * indent + word[:split_offset] + JOIN_CHAR` and
keeps `word[split_offset:]`, where `split_offset = width - 1 - indent`
(an `int` that can be non-positive, in which case the source loop
diverges or slices from the end; fuel `word.length + 2`, supplied by
`wrap_words`, covers every terminating source run). -/
def forceSplit (width indent : Nat) : Nat → Str → List Str × Str
  | 0, word => ([], word)
  | Nat.succ fuel, word =>
    if width < word.length then
      let so : Int := (width : Int) - 1 - (indent : Int)
      let fragment := spaces indent ++ pyTake word so ++ [JOIN_CHAR]
      let next := forceSplit width indent fuel (pyDrop word so)
      (fragment :: next.1, next.2)
    else ([], word)

/-- The word-packing loop of `wrap_words`: `line` starts as the indent;
a word that would overflow flushes the current non-empty line, is
hard-split while longer than `width`, loses its leading whitespace, and
starts the next line after the indent. -/
def wrapAux (width indent : Nat) : List Str → Str → List Str
  | [], line => if 0 < line.length then [line] else []
  | word :: ws, line =>
    if width < line.length + word.length then
      let flushed : List Str := if 0 < line.length then [line] else []
      let split := forceSplit width indent (word.length + 2) word
      let word2 := split.2.dropWhile isPySpace
      flushed ++ split.1 ++ wrapAux width indent ws (spaces indent ++ word2)
    else wrapAux width indent ws (line ++ word)

/-- `wrap_words(text, width, indent=0)` of src/bebop/metalines.py. -/
def wrap_words (text : Str) (width : Nat) (indent : Nat := 0) : List Str :=
  wrapAux width indent (explodeWords text) (spaces indent)

/-- Python `f"{line:^{width}}"` centering: pad to `width` with the extra
space going to the right. -/
def centerIn (width : Nat) (l : Str) : Str :=
  if width ≤ l.length then l
  else
    let pad := width - l.length
    spaces (pad / 2) ++ l ++ spaces (pad - pad / 2)

/-- `format_title` of src/bebop/metalines.py. -/
def format_title (level : Nat) (text : Str) (o : RenderOptions) : List Metaline :=
  let lines :=
    if level = 1 then (wrap_words text o.width 0).map (centerIn o.width)
    else if level = 2 then wrap_words text o.width 2
    else wrap_words text o.width 0
  lines.map (fun l => (lineTypeOfLevel level, l, (none : Option LinkExtra)))

/-- `format_paragraph` of src/bebop/metalines.py. -/
def format_paragraph (text : Str) (o : RenderOptions) : List Metaline :=
  (wrap_words text o.width 0).map (fun l => (LineType.PARAGRAPH, l, (none : Option LinkExtra)))

/-- `format_link` of src/bebop/metalines.py: build the `"[id] "` anchor,
wrap `link.text or link.url` indented by the anchor length, substitute
the anchor into the first line, and attach `{url, link_id}` to it only.
`link.text or link.url` falls back to the url both for `None` and for an
empty string.  The source indexes `lines[0]`; `wrap_words` with a
positive indent always returns a non-empty list
(`wrap_words_ne_nil` below), modelled totally with `headD`. -/
def format_link (url : Str) (text : Option Str) (ident : Nat)
    (o : RenderOptions) : List Metaline :=
  let link_anchor : Str := '[' :: Nat.toDigits 10 ident ++ [']', ' ']
  let link_text :=
    match text with
    | none => url
    | some t => if t = [] then url else t
  let lines := wrap_words link_text o.width link_anchor.length
  let first_line_extra : Option LinkExtra := some ⟨url, ident⟩
  let first_line_text := link_anchor ++ (lines.headD []).drop link_anchor.length
  (LineType.LINK, first_line_text, first_line_extra) ::
    lines.tail.map (fun l => (LineType.LINK, l, (none : Option LinkExtra)))

/-- `format_preformatted` of src/bebop/metalines.py. -/
def format_preformatted (lines : List Str) (o : RenderOptions) : List Metaline :=
  lines.map (fun l => (LineType.PREFORMATTED, l, (none : Option LinkExtra)))

/-- `format_blockquote` of src/bebop/metalines.py. -/
def format_blockquote (text : Str) (o : RenderOptions) : List Metaline :=
  (wrap_words text o.width 2).map (fun l => (LineType.BLOCKQUOTE, l, (none : Option LinkExtra)))

/-- `format_list_item` of src/bebop/metalines.py: wrap indented by the
bullet length and substitute the bullet into the first line (the source
assigns `lines[0]`; same non-emptiness note as in `format_link`). -/
def format_list_item (text : Str) (o : RenderOptions) : List Metaline :=
  let indent := o.bullet.length
  let lines := wrap_words text o.width indent
  let first_line := o.bullet ++ (lines.headD []).drop indent
  (LineType.LIST_ITEM, first_line, (none : Option LinkExtra)) ::
    lines.tail.map (fun l => (LineType.LIST_ITEM, l, (none : Option LinkExtra)))

/-- The per-element dispatch of `generate_metalines`: the metalines of
the element together with the `has_margins` and `thin_type` values set
in the matching `isinstance` branch. -/
def formatElement (e : Element) (o : RenderOptions) :
    List Metaline × Bool × Option LineType :=
  match e with
  | .title lev text => (format_title lev text o, true, none)
  | .paragraph text => (format_paragraph text o, true, none)
  | .link url text ident => (format_link url text ident o, false, some .LINK)
  | .preformatted ls => (format_preformatted ls o, true, none)
  | .blockquote text => (format_blockquote text o, true, none)
  | .listItem text => (format_list_item text o, false, some .LIST_ITEM)

/-- The string `"dumb"`. -/
def dumbMode : Str := ['d', 'u', 'm', 'b']

/-- The blank separator metaline `(LineType.NONE, "", None)`. -/
def separator : Metaline := (LineType.NONE, [], none)

/-- The loop of `generate_metalines` (src/bebop/metalines.py, lines
65-119): `index`, `previous_had_margins` and `last_thin_type` carry the
loop state.  In dumb mode an element with no metalines yields one empty
paragraph metaline; otherwise a separator is emitted before the element
when the source's three-way condition holds. -/
def genAux (o : RenderOptions) :
    List Element → Nat → Bool → Option LineType → List Metaline
  | [], _, _, _ => []
  | e :: rest, index, previous_had_margins, last_thin_type =>
    let fmt := formatElement e o
    let element_metalines := fmt.1
    let has_margins := fmt.2.1
    let thin_type := fmt.2.2
    let element_metalines' :=
      if o.mode = dumbMode then
        (if element_metalines.isEmpty then [(LineType.PARAGRAPH, [], (none : Option LinkExtra))]
         else element_metalines)
      else element_metalines
    let sep : List Metaline :=
      if o.mode ≠ dumbMode ∧
          ((has_margins = true ∧ 0 < index) ∨
           (has_margins = false ∧ previous_had_margins = true) ∨
           (has_margins = false ∧ thin_type ≠ last_thin_type)) then
        [separator]
      else []
    sep ++ element_metalines' ++ genAux o rest (index + 1) has_margins thin_type

/-- `generate_metalines(elements, options)` of src/bebop/metalines.py. -/
def generate_metalines (elements : List Element) (options : RenderOptions) :
    List Metaline :=
  genAux options elements 0 false none

/-- Modelled from the spec: the link-id counter is not assigned anywhere
under src/ (src/bebop/metalines.py `format_link` reads `link.ident`, but
src/bebop/gemtext.py's `Link` has no such field and no caller in src/
sets one).  Per the spec's layout contract — "let `id` = next sequential
value from the counter", ids "assigned in document order, gap-free",
`start_link_id=1` — this gives the Link blocks consecutive idents in
document order starting from `c`. -/
def assignLinkIds (c : Nat) : List Element → List Element
  | [] => []
  | .link url text _ :: rest => .link url text c :: assignLinkIds (c + 1) rest
  | e :: rest => e :: assignLinkIds c rest

/-- The full pipeline on a document: parse, assign link ids starting at
1, lay out. -/
def renderDoc (doc : List Str) (o : RenderOptions) : List Metaline :=
  generate_metalines (assignLinkIds 1 (parse_gemtext doc)) o

/-! ## src/bebop/page.py -/

/-- The mutable state of `PagePad` (src/bebop/page.py): the pad
dimensions `dim = (rows, cols)`, the two scroll offsets and the loaded
page (its metalines; the curses pad object itself carries no further
state relevant to scrolling). -/
structure PagePad where
  dim : Int × Int
  current_line : Int
  current_column : Int
  current_page : Option (List Metaline)
  deriving DecidableEq, Repr

/-- `PagePad.MAX_COLS = 1000`. -/
def MAX_COLS : Int := 1000

/-- `PagePad.__init__(initial_num_lines)`: dimensions
`(initial_num_lines, MAX_COLS)`, offsets zero, no page. -/
def PagePad.init (initial_num_lines : Int) : PagePad :=
  ⟨(initial_num_lines, MAX_COLS), 0, 0, none⟩

/-- `PagePad.show_page(page)`: store the page, reset both offsets.
Modelled from the spec for the new dimensions: `render_lines` lives in
`bebop.rendering`, which is not under src/; the spec's load contract
says "recompute `rows = len(page.metalines)`; `max_columns` stays fixed
at 1000". -/
def show_page (p : PagePad) (page : List Metaline) : PagePad :=
  { p with
    current_page := some page
    dim := ((page.length : Int), MAX_COLS)
    current_line := 0
    current_column := 0 }

/-- `PagePad.scroll_v(num_lines, window_height=0)` (src/bebop/page.py,
lines 55-76), returning the new state and the reported boolean. -/
def scroll_v (p : PagePad) (num_lines : Int) (window_height : Int := 0) :
    PagePad × Bool :=
  if num_lines < 0 then
    let num_lines' := -num_lines
    let min_line : Int := 0
    if min_line < p.current_line then
      ({ p with current_line := max (p.current_line - num_lines') min_line }, true)
    else (p, false)
  else
    let max_line := p.dim.1 - window_height
    if p.current_line < max_line then
      ({ p with current_line := min (p.current_line + num_lines) max_line }, true)
    else (p, false)

/-- `PagePad.scroll_h(num_columns, window_width=0)` (src/bebop/page.py,
lines 78-92). -/
def scroll_h (p : PagePad) (num_columns : Int) (window_width : Int := 0) :
    PagePad × Bool :=
  if num_columns < 0 then
    let num_columns' := -num_columns
    let min_column : Int := 0
    if min_column < p.current_column then
      let new_column := p.current_column - num_columns'
      ({ p with current_column := max new_column min_column }, true)
    else (p, false)
  else
    let max_column := p.dim.2 - window_width
    if p.current_column < max_column then
      let new_column := p.current_column + num_columns
      ({ p with current_column := min new_column max_column }, true)
    else (p, false)

/-- `PagePad.go_to_beginning()`: the source tests the Python truthiness
of `current_line`, i.e. whether it is non-zero. -/
def go_to_beginning (p : PagePad) : PagePad × Bool :=
  if p.current_line ≠ 0 then ({ p with current_line := 0 }, true)
  else (p, false)

/-- `PagePad.go_to_end(window_height)` (src/bebop/page.py, lines
94-105): jump to `dim[0] - window_height` whenever not already there. -/
def go_to_end (p : PagePad) (window_height : Int) : PagePad × Bool :=
  let max_line := p.dim.1 - window_height
  if p.current_line ≠ max_line then
    ({ p with current_line := max_line }, true)
  else (p, false)

/-- One scroll-buffer operation with its per-call arguments. -/
inductive ScrollOp where
  | vert (num_lines window_height : Int)
  | horiz (num_columns window_width : Int)
  | toBeginning
  | toEnd (window_height : Int)
  | load (page : List Metaline)
  deriving Repr

/-- Apply one operation to the state (discarding the reported boolean). -/
def applyOp (p : PagePad) : ScrollOp → PagePad
  | .vert n h => (scroll_v p n h).1
  | .horiz n w => (scroll_h p n w).1
  | .toBeginning => (go_to_beginning p).1
  | .toEnd h => (go_to_end p h).1
  | .load page => show_page p page

/-- A sequence of `scroll_v` calls with a fixed viewport height. -/
def scrollSeq (h : Int) (p : PagePad) (deltas : List Int) : PagePad :=
  deltas.foldl (fun s n => (scroll_v s n h).1) p

/-! ## Link-id bookkeeping (claim C1) -/

/-- The link ids attached to metalines, in display order. -/
def linkIdsOfMetalines : List Metaline → List Nat
  | [] => []
  | (_, _, some e) :: r => e.link_id :: linkIdsOfMetalines r
  | (_, _, none) :: r => linkIdsOfMetalines r

/-- The idents carried by the Link elements of a list, in order. -/
def elementLinkIds : List Element → List Nat
  | [] => []
  | .link _ _ i :: r => i :: elementLinkIds r
  | .paragraph _ :: r => elementLinkIds r
  | .title _ _ :: r => elementLinkIds r
  | .preformatted _ :: r => elementLinkIds r
  | .blockquote _ :: r => elementLinkIds r
  | .listItem _ :: r => elementLinkIds r

/-- The number of Link blocks in a list of elements. -/
def countLinks : List Element → Nat
  | [] => 0
  | .link _ _ _ :: r => countLinks r + 1
  | .paragraph _ :: r => countLinks r
  | .title _ _ :: r => countLinks r
  | .preformatted _ :: r => countLinks r
  | .blockquote _ :: r => countLinks r
  | .listItem _ :: r => countLinks r

theorem linkIds_append (a b : List Metaline) :
    linkIdsOfMetalines (a ++ b) = linkIdsOfMetalines a ++ linkIdsOfMetalines b := by
  induction a with
  | nil => rfl
  | cons m r ih =>
    rcases m with ⟨t, s, e⟩
    cases e <;> simp [linkIdsOfMetalines, ih]

theorem linkIds_map_of_none (F : Str → Metaline)
    (hF : ∀ a, (F a).2.2 = (none : Option LinkExtra)) :
    ∀ xs : List Str, linkIdsOfMetalines (xs.map F) = [] := by
  intro xs
  induction xs with
  | nil => rfl
  | cons a as ih =>
    have h := hF a
    rcases hFa : F a with ⟨t, s, e⟩
    rw [hFa] at h
    simp only at h
    subst h
    simp [hFa, linkIdsOfMetalines, ih]

theorem linkIds_format_title (lev : Nat) (text : Str) (o : RenderOptions) :
    linkIdsOfMetalines (format_title lev text o) = [] := by
  unfold format_title
  exact linkIds_map_of_none _ (fun a => rfl) _

theorem linkIds_format_paragraph (text : Str) (o : RenderOptions) :
    linkIdsOfMetalines (format_paragraph text o) = [] := by
  unfold format_paragraph
  exact linkIds_map_of_none _ (fun a => rfl) _

theorem linkIds_format_preformatted (ls : List Str) (o : RenderOptions) :
    linkIdsOfMetalines (format_preformatted ls o) = [] := by
  unfold format_preformatted
  exact linkIds_map_of_none _ (fun a => rfl) _

theorem linkIds_format_blockquote (text : Str) (o : RenderOptions) :
    linkIdsOfMetalines (format_blockquote text o) = [] := by
  unfold format_blockquote
  exact linkIds_map_of_none _ (fun a => rfl) _

theorem linkIds_format_list_item (text : Str) (o : RenderOptions) :
    linkIdsOfMetalines (format_list_item text o) = [] := by
  unfold format_list_item
  simp only [linkIdsOfMetalines]
  exact linkIds_map_of_none _ (fun a => rfl) _

theorem linkIds_format_link (url : Str) (text : Option Str) (ident : Nat)
    (o : RenderOptions) :
    linkIdsOfMetalines (format_link url text ident o) = [ident] := by
  unfold format_link
  simp only [linkIdsOfMetalines]
  rw [linkIds_map_of_none _ (fun a => rfl)]

theorem linkIds_genAux_cons (o : RenderOptions) (e : Element)
    (rest : List Element) (i : Nat) (pm : Bool) (lt : Option LineType) :
    linkIdsOfMetalines (genAux o (e :: rest) i pm lt) =
      linkIdsOfMetalines (formatElement e o).1 ++
        linkIdsOfMetalines
          (genAux o rest (i + 1) (formatElement e o).2.1 (formatElement e o).2.2) := by
  simp only [genAux]
  rw [linkIds_append, linkIds_append]
  have hsep :
      linkIdsOfMetalines
        (if o.mode ≠ dumbMode ∧
            (((formatElement e o).2.1 = true ∧ 0 < i) ∨
             ((formatElement e o).2.1 = false ∧ pm = true) ∨
             ((formatElement e o).2.1 = false ∧ (formatElement e o).2.2 ≠ lt)) then
          [separator]
        else []) = [] := by
    split_ifs <;> rfl
  rw [hsep]
  have helm :
      linkIdsOfMetalines
        (if o.mode = dumbMode then
          (if (formatElement e o).1.isEmpty then
            [(LineType.PARAGRAPH, [], (none : Option LinkExtra))]
          else (formatElement e o).1)
        else (formatElement e o).1) = linkIdsOfMetalines (formatElement e o).1 := by
    split_ifs with h1 h2
    · rw [List.isEmpty_iff.mp h2]; rfl
    · rfl
    · rfl
  rw [helm]
  rfl

theorem linkIds_genAux (o : RenderOptions) :
    ∀ (es : List Element) (i : Nat) (pm : Bool) (lt : Option LineType),
      linkIdsOfMetalines (genAux o es i pm lt) = elementLinkIds es := by
  intro es
  induction es with
  | nil => intro i pm lt; rfl
  | cons e rest ih =>
    intro i pm lt
    rw [linkIds_genAux_cons, ih]
    cases e <;>
      simp [formatElement, elementLinkIds, linkIds_format_title,
        linkIds_format_paragraph, linkIds_format_preformatted,
        linkIds_format_blockquote, linkIds_format_list_item,
        linkIds_format_link]

theorem elementLinkIds_assign :
    ∀ (es : List Element) (c : Nat),
      elementLinkIds (assignLinkIds c es) = List.range' c (countLinks es) := by
  intro es
  induction es with
  | nil => intro c; rfl
  | cons e rest ih =>
    intro c
    cases e <;> simp [assignLinkIds, elementLinkIds, countLinks, ih, List.range']

/-- Claim C1: for every document, the link ids attached by the layout
engine to link metalines are exactly `{1..N}`, `N` the number of Link
blocks, assigned gap-free in document order, regardless of how many
display rows each link's text wraps into (link-id assignment itself is
modelled from the spec, see `assignLinkIds`). -/
theorem link_ids_gap_free (doc : List Str) (o : RenderOptions) :
    linkIdsOfMetalines (renderDoc doc o) =
      List.range' 1 (countLinks (parse_gemtext doc)) := by
  unfold renderDoc generate_metalines
  rw [linkIds_genAux, elementLinkIds_assign]

/-! ## Word-wrap width bounds (claim C2) -/

theorem length_dropWhile_le (p : Char → Bool) (l : Str) :
    (l.dropWhile p).length ≤ l.length := by
  induction l with
  | nil => simp [List.dropWhile]
  | cons a as ih => by_cases h : p a <;> simp [List.dropWhile_cons, h] <;> omega

theorem forceSplit_frag_len (width indent : Nat) (hw : indent + 2 ≤ width) :
    ∀ (fuel : Nat) (word : Str), ∀ l ∈ (forceSplit width indent fuel word).1,
      l.length = width := by
  intro fuel
  induction fuel with
  | zero => intro word l hl; simp [forceSplit] at hl
  | succ f ih =>
    intro word l hl
    by_cases hlen : width < word.length
    · simp only [forceSplit, if_pos hlen] at hl
      rcases List.mem_cons.mp hl with rfl | h'
      · have hso : (0 : Int) ≤ (width : Int) - 1 - (indent : Int) := by omega
        simp [pyTake, hso, spaces, List.length_append, List.length_take,
          List.length_replicate]
        omega
      · exact ih _ _ h'
    · simp [forceSplit, hlen] at hl

theorem forceSplit_rest_len (width indent : Nat) (hw : indent + 2 ≤ width) :
    ∀ (fuel : Nat) (word : Str), word.length < fuel →
      (forceSplit width indent fuel word).2.length ≤ width := by
  intro fuel
  induction fuel with
  | zero => intro word h; omega
  | succ f ih =>
    intro word hfuel
    by_cases hlen : width < word.length
    · simp only [forceSplit, if_pos hlen]
      apply ih
      have hso : (0 : Int) ≤ (width : Int) - 1 - (indent : Int) := by omega
      simp [pyDrop, hso, List.length_drop]
      omega
    · simp only [forceSplit, if_neg hlen]
      omega

theorem wrapAux_len_bound (width indent : Nat) (hw : indent + 2 ≤ width) :
    ∀ (ws : List Str) (line : Str), line.length ≤ indent + width →
      ∀ l ∈ wrapAux width indent ws line, l.length ≤ indent + width := by
  intro ws
  induction ws with
  | nil =>
    intro line hline l hl
    simp only [wrapAux] at hl
    split at hl
    · simp only [List.mem_singleton] at hl
      subst hl; exact hline
    · simp at hl
  | cons w ws ih =>
    intro line hline l hl
    simp only [wrapAux] at hl
    split at hl
    case isTrue hb =>
      simp only [List.mem_append] at hl
      rcases hl with (hl | hl) | hl
      · split at hl
        · simp only [List.mem_singleton] at hl
          subst hl; exact hline
        · simp at hl
      · have := forceSplit_frag_len width indent hw _ _ _ hl
        omega
      · apply ih _ ?_ l hl
        have h1 : ((forceSplit width indent (w.length + 2) w).2).length ≤ width :=
          forceSplit_rest_len width indent hw _ _ (by omega)
        have h2 := length_dropWhile_le isPySpace (forceSplit width indent (w.length + 2) w).2
        simp [spaces, List.length_append, List.length_replicate]
        omega
    case isFalse hb =>
      apply ih _ ?_ l hl
      simp only [List.length_append]
      omega

/-- Claim C2 (amended): whenever `width ≥ indent + 2` (the regime in
which the source's splitting loop terminates), every line returned by
`wrap_words` has visible length at most `width + indent` — a line can
exceed `width` only when a single unsplit word longer than
`width − indent` follows the indent — and every hard-split fragment is
exactly `width` characters (indent, chunk, join char). -/
theorem wrap_words_width_bound_amended (text : Str) (width indent fuel : Nat)
    (word : Str) (hw : indent + 2 ≤ width) :
    (∀ l ∈ wrap_words text width indent, l.length ≤ indent + width) ∧
    (∀ l ∈ (forceSplit width indent fuel word).1, l.length = width) := by
  constructor
  · intro l hl
    apply wrapAux_len_bound width indent hw (explodeWords text) (spaces indent)
      ?_ l hl
    simp [spaces, List.length_replicate]
  · exact fun l hl => forceSplit_frag_len width indent hw fuel word l hl

/-- Claim C2 (counterexample): at `width = 10`, `indent = 2`, the text
`"abcdefghi"` yields the line `"  abcdefghi"` of visible length 11 — more
than `width`, and not a hard-split fragment of exactly `width`
characters. -/
theorem wrap_words_width_bound_counterexample :
    wrap_words "abcdefghi".toList 10 2 = ["  ".toList, "  abcdefghi".toList] ∧
      ("  abcdefghi".toList).length = 11 := by decide

/-- Claim C2 (witness for the amended theorem). -/
theorem wrap_words_width_bound_amended_witness :
    0 + 2 ≤ 5 ∧
      ((∀ l ∈ wrap_words "hello world".toList 5 0, l.length ≤ 0 + 5) ∧
       (∀ l ∈ (forceSplit 5 0 12 "abcdefghijk".toList).1, l.length = 5)) :=
  ⟨by decide,
    wrap_words_width_bound_amended "hello world".toList 5 0 12
      "abcdefghijk".toList (by decide)⟩

/-- Fidelity note for `format_link` / `format_list_item`: with a
positive indent the source's `lines[0]` never raises, because
`wrap_words` then returns at least one line (the current line always
keeps its indent prefix, hence is non-empty and gets flushed). -/
theorem wrapAux_ne_nil (width indent : Nat) (hi : 0 < indent) :
    ∀ (ws : List Str) (line : Str), line ≠ [] →
      wrapAux width indent ws line ≠ [] := by
  intro ws
  induction ws with
  | nil =>
    intro line hline
    simp only [wrapAux]
    split
    · simp
    · rename_i h
      rcases line with _ | ⟨a, as⟩
      · exact absurd rfl hline
      · simp at h
  | cons w ws ih =>
    intro line hline
    simp only [wrapAux]
    split
    · have : spaces indent ++
          ((forceSplit width indent (w.length + 2) w).2.dropWhile isPySpace) ≠ [] := by
        simp [spaces, List.append_eq_nil]
        omega
      have hrec := ih _ this
      simp [List.append_eq_nil]
      intro _ _ hcontr
      exact hrec hcontr
    · apply ih
      simp [List.append_eq_nil]
      intro hcontr _
      exact hline hcontr

theorem wrap_words_ne_nil (text : Str) (width indent : Nat) (hi : 0 < indent) :
    wrap_words text width indent ≠ [] := by
  apply wrapAux_ne_nil width indent hi
  simp [spaces]
  omega

/-! ## Parser and layout evaluation theorems (claims C3, C4, C9) -/

/-- Claim C3 (code bug): in fancy mode, a document whose first block is
a Link gets a blank separator metaline emitted before the first block's
own metalines — the third disjunct of the separator condition in
`generate_metalines` fires at index 0 because `last_thin_type` starts as
`None`, contradicting the source's own comment ("separate from previous
element") and the spec. -/
theorem fancy_leading_separator_bug :
    renderDoc ["=> u".toList] ⟨80, "fancy".toList, "- ".toList⟩ =
      [separator,
       (LineType.LINK, "[1] u".toList, some ⟨"u".toList, 1⟩)] ∧
      separator = (LineType.NONE, [], none) := by
  constructor
  · decide
  · rfl

/-- Claim C4 (code bug): while the preformatted fence is open, a line
matching the title pattern is still classified as a Title (the fence
and preformatted fallback are checked only after the Title and Link
patterns in `parse_gemtext`), so `"# x"` between two fences escapes the
block and the Preformatted block is emitted empty. -/
theorem preformatted_fence_capture_bug :
    parse_gemtext ["```".toList, "# x".toList, "```".toList] =
      [Element.title 1 ['x'], Element.preformatted []] := by decide

/-- Claim C9 (code bug): for a link line without trailing text the
parser stores `None`, not the empty string, in the Link's text field:
`match_dict.get("text", "")` returns the stored `None` because the
non-participating named group is present in `groupdict()`. -/
theorem link_empty_text_none_bug :
    parse_gemtext ["=> gemini://example.com".toList] =
      [Element.link "gemini://example.com".toList none 0] ∧
      Element.link "gemini://example.com".toList none 0 ≠
        Element.link "gemini://example.com".toList (some []) 0 := by decide

/-! ## Scroll buffer (claims C5-C8, C10) -/

theorem scroll_v_frame (p : PagePad) (n h : Int) :
    (scroll_v p n h).1.current_column = p.current_column ∧
      (scroll_v p n h).1.dim = p.dim ∧
      (scroll_v p n h).1.current_page = p.current_page := by
  simp only [scroll_v]
  split_ifs <;> exact ⟨rfl, rfl, rfl⟩

theorem scroll_h_frame (p : PagePad) (n w : Int) :
    (scroll_h p n w).1.current_line = p.current_line ∧
      (scroll_h p n w).1.dim = p.dim ∧
      (scroll_h p n w).1.current_page = p.current_page := by
  simp only [scroll_h]
  split_ifs <;> exact ⟨rfl, rfl, rfl⟩

theorem go_to_beginning_frame (p : PagePad) :
    (go_to_beginning p).1.current_column = p.current_column ∧
      (go_to_beginning p).1.dim = p.dim ∧
      (go_to_beginning p).1.current_page = p.current_page := by
  simp only [go_to_beginning]
  split_ifs <;> exact ⟨rfl, rfl, rfl⟩

theorem go_to_end_frame (p : PagePad) (h : Int) :
    (go_to_end p h).1.current_column = p.current_column ∧
      (go_to_end p h).1.dim = p.dim ∧
      (go_to_end p h).1.current_page = p.current_page := by
  simp only [go_to_end]
  split_ifs <;> exact ⟨rfl, rfl, rfl⟩

/-- Claim C10: vertical operations never touch `current_column`,
`scroll_h` never touches `current_line`, and no scroll operation
modifies the loaded page or the pad dimensions. -/
theorem scroll_ops_frame (p : PagePad) (n h : Int) :
    ((scroll_v p n h).1.current_column = p.current_column ∧
      (scroll_v p n h).1.dim = p.dim ∧
      (scroll_v p n h).1.current_page = p.current_page) ∧
    ((scroll_h p n h).1.current_line = p.current_line ∧
      (scroll_h p n h).1.dim = p.dim ∧
      (scroll_h p n h).1.current_page = p.current_page) ∧
    ((go_to_beginning p).1.current_column = p.current_column ∧
      (go_to_beginning p).1.dim = p.dim ∧
      (go_to_beginning p).1.current_page = p.current_page) ∧
    ((go_to_end p h).1.current_column = p.current_column ∧
      (go_to_end p h).1.dim = p.dim ∧
      (go_to_end p h).1.current_page = p.current_page) :=
  ⟨scroll_v_frame p n h, scroll_h_frame p n h,
   go_to_beginning_frame p, go_to_end_frame p h⟩

theorem scroll_v_bounds (p : PagePad) (n h : Int)
    (h0 : 0 ≤ p.current_line) (h1 : p.current_line ≤ max 0 (p.dim.1 - h)) :
    0 ≤ (scroll_v p n h).1.current_line ∧
      (scroll_v p n h).1.current_line ≤ max 0 (p.dim.1 - h) := by
  simp only [scroll_v]
  split_ifs <;> constructor <;> simp <;> omega

theorem scroll_h_bounds (p : PagePad) (n w : Int)
    (h0 : 0 ≤ p.current_column) (h1 : p.current_column ≤ max 0 (p.dim.2 - w)) :
    0 ≤ (scroll_h p n w).1.current_column ∧
      (scroll_h p n w).1.current_column ≤ max 0 (p.dim.2 - w) := by
  simp only [scroll_h]
  split_ifs <;> constructor <;> simp <;> omega

/-- The per-call clamp ranges of the spec, for viewport sizes `h` and
`w`: `current_line ∈ [0, max(0, rows − h)]` and
`current_column ∈ [0, max(0, cols − w)]`. -/
def clampInv (p : PagePad) (h w : Int) : Prop :=
  0 ≤ p.current_line ∧ p.current_line ≤ max 0 (p.dim.1 - h) ∧
    0 ≤ p.current_column ∧ p.current_column ≤ max 0 (p.dim.2 - w)

/-- Side conditions under which the clamp ranges are preserved: the
operation's own viewport size agrees with the one the offsets are
clamped for, and `go_to_end` is not given a viewport height exceeding
the row count. -/
def opOK (p : PagePad) (h w : Int) : ScrollOp → Prop
  | .vert _ h' => h' = h
  | .horiz _ w' => w' = w
  | .toBeginning => True
  | .toEnd h' => h' = h ∧ h ≤ p.dim.1
  | .load _ => True

/-- Claim C5 (amended): every scroll-buffer operation preserves the
clamp ranges for the viewport size supplied to that call, provided that
size agrees with the one the offsets are currently clamped for and that
`go_to_end`'s viewport height does not exceed the row count.  (As
claimed — for arbitrary arguments and per-call sizes — the invariant
fails: see `scroll_clamp_invariant_counterexample`.) -/
theorem scroll_clamp_invariant_amended (p : PagePad) (op : ScrollOp)
    (h w : Int) (hinv : clampInv p h w) (hok : opOK p h w op) :
    clampInv (applyOp p op) h w := by
  obtain ⟨h0, h1, h2, h3⟩ := hinv
  cases op with
  | vert n h' =>
    rw [show h' = h from hok]
    have hb := scroll_v_bounds p n h h0 h1
    have hf := scroll_v_frame p n h
    simp only [applyOp]
    refine ⟨hb.1, ?_, ?_, ?_⟩
    · rw [hf.2.1]; exact hb.2
    · rw [hf.1]; exact h2
    · rw [hf.1, hf.2.1]; exact h3
  | horiz n w' =>
    rw [show w' = w from hok]
    have hb := scroll_h_bounds p n w h2 h3
    have hf := scroll_h_frame p n w
    simp only [applyOp]
    exact ⟨by rw [hf.1]; exact h0, by rw [hf.1, hf.2.1]; exact h1, hb.1,
      by rw [hf.2.1]; exact hb.2⟩
  | toBeginning =>
    simp only [applyOp, go_to_beginning]
    split_ifs
    · exact ⟨le_refl 0, le_max_left 0 _, h2, h3⟩
    · exact ⟨h0, h1, h2, h3⟩
  | toEnd h' =>
    obtain ⟨he, hle⟩ := hok
    rw [he]
    simp only [applyOp, go_to_end]
    split_ifs
    · refine ⟨?_, ?_, h2, h3⟩
      · show (0 : Int) ≤ p.dim.1 - h
        omega
      · show p.dim.1 - h ≤ max 0 (p.dim.1 - h)
        exact le_max_right 0 _
    · exact ⟨h0, h1, h2, h3⟩
  | load page =>
    simp only [applyOp, show_page]
    exact ⟨le_refl 0, le_max_left 0 _, le_refl 0, le_max_left 0 _⟩

/-- Claim C5 (witness for the amended theorem). -/
theorem scroll_clamp_invariant_amended_witness :
    clampInv (PagePad.init 10) 2 5 ∧
      opOK (PagePad.init 10) 2 5 (ScrollOp.vert 3 2) ∧
      clampInv (applyOp (PagePad.init 10) (ScrollOp.vert 3 2)) 2 5 := by
  have hinv : clampInv (PagePad.init 10) 2 5 := by
    unfold clampInv PagePad.init
    refine ⟨by decide, by decide, by decide, by decide⟩
  have hok : opOK (PagePad.init 10) 2 5 (ScrollOp.vert 3 2) := rfl
  exact ⟨hinv, hok, scroll_clamp_invariant_amended _ _ _ _ hinv hok⟩

/-- Claim C5 (counterexample): from a fresh 10-row pad, `go_to_end`
called with a viewport height of 15 (> rows, an argument the claim
explicitly includes) drives `current_line` to −5, outside
`[0, max(0, rows − viewport_height)] = [0, 0]`. -/
theorem scroll_clamp_invariant_counterexample :
    (go_to_end (PagePad.init 10) 15).1.current_line = -5 ∧
      ¬ (0 ≤ (go_to_end (PagePad.init 10) 15).1.current_line) := by decide

/-- Claim C6 (amended): a non-positive viewport size is NOT guarded.
An upward scroll ignores it; a downward (`delta ≥ 0`) scroll clamps
against `rows − viewport_height` (which then exceeds the row count), so
from any state strictly below that limit it moves and returns `true`.
The call still never faults.  (As claimed — a guarded no-op returning
`false` — it fails: see `nonpositive_viewport_guard_counterexample`.) -/
theorem nonpositive_viewport_behavior (p : PagePad) (n h : Int)
    (hh : h ≤ 0) (hn : 0 ≤ n) :
    (p.current_line < p.dim.1 - h →
      (scroll_v p n h).1.current_line = min (p.current_line + n) (p.dim.1 - h) ∧
        (scroll_v p n h).2 = true) ∧
    (p.current_column < p.dim.2 - h →
      (scroll_h p n h).1.current_column = min (p.current_column + n) (p.dim.2 - h) ∧
        (scroll_h p n h).2 = true) := by
  constructor
  · intro hc
    simp only [scroll_v]
    split_ifs with h1 h2
    · omega
    · omega
    · exact ⟨rfl, rfl⟩
  · intro hc
    simp only [scroll_h]
    split_ifs with h1 h2
    · omega
    · omega
    · exact ⟨rfl, rfl⟩

/-- Claim C6 (witness for the amended theorem). -/
theorem nonpositive_viewport_behavior_witness :
    (0 : Int) ≤ 0 ∧ (0 : Int) ≤ 3 ∧
      (((PagePad.init 10).current_line < (PagePad.init 10).dim.1 - 0 →
        (scroll_v (PagePad.init 10) 3 0).1.current_line =
          min ((PagePad.init 10).current_line + 3) ((PagePad.init 10).dim.1 - 0) ∧
          (scroll_v (PagePad.init 10) 3 0).2 = true) ∧
      ((PagePad.init 10).current_column < (PagePad.init 10).dim.2 - 0 →
        (scroll_h (PagePad.init 10) 3 0).1.current_column =
          min ((PagePad.init 10).current_column + 3) ((PagePad.init 10).dim.2 - 0) ∧
          (scroll_h (PagePad.init 10) 3 0).2 = true)) :=
  ⟨by decide, by decide,
    nonpositive_viewport_behavior (PagePad.init 10) 3 0 (by decide) (by decide)⟩

/-- Claim C6 (counterexample): on a fresh 10-row pad,
`scroll_v(3, window_height=0)` is not a no-op: it moves `current_line`
to 3 and returns `true`, where the claim requires `false` and no
change. -/
theorem nonpositive_viewport_guard_counterexample :
    (scroll_v (PagePad.init 10) 3 0).2 = true ∧
      (scroll_v (PagePad.init 10) 3 0).1.current_line = 3 := by decide

/-- Claim C7 (amended): for every non-zero delta, `scroll_v` returns
`true` exactly when `current_line` changed.  (For `delta = 0` the source
returns `true` without moving whenever `current_line < rows − height`:
see `scroll_v_changed_flag_counterexample`.) -/
theorem scroll_v_changed_flag_amended (p : PagePad) (n h : Int) (hn : n ≠ 0) :
    (scroll_v p n h).2 = true ↔
      (scroll_v p n h).1.current_line ≠ p.current_line := by
  simp only [scroll_v]
  split_ifs with h1 h2 h2
  · simp
    omega
  · simp
  · simp
    omega
  · simp

/-- Claim C7 (witness for the amended theorem). -/
theorem scroll_v_changed_flag_amended_witness :
    (1 : Int) ≠ 0 ∧
      ((scroll_v (PagePad.init 10) 1 2).2 = true ↔
        (scroll_v (PagePad.init 10) 1 2).1.current_line ≠
          (PagePad.init 10).current_line) :=
  ⟨by decide, scroll_v_changed_flag_amended (PagePad.init 10) 1 2 (by decide)⟩

/-- Claim C7 (counterexample): with `delta = 0` on a fresh 10-row pad
and viewport height 2, `scroll_v` returns `true` although
`current_line` is unchanged. -/
theorem scroll_v_changed_flag_counterexample :
    (scroll_v (PagePad.init 10) 0 2).2 = true ∧
      (scroll_v (PagePad.init 10) 0 2).1.current_line =
        (PagePad.init 10).current_line := by decide

theorem scrollSeq_inv (h : Int) :
    ∀ (deltas : List Int) (p : PagePad),
      0 ≤ p.current_line → p.current_line ≤ max 0 (p.dim.1 - h) →
      (scrollSeq h p deltas).dim = p.dim ∧
        0 ≤ (scrollSeq h p deltas).current_line ∧
        (scrollSeq h p deltas).current_line ≤ max 0 (p.dim.1 - h) := by
  intro deltas
  induction deltas with
  | nil => intro p h0 h1; exact ⟨rfl, h0, h1⟩
  | cons n rest ih =>
    intro p h0 h1
    have hb := scroll_v_bounds p n h h0 h1
    have hd := (scroll_v_frame p n h).2.1
    have hrec := ih (scroll_v p n h).1 hb.1 (by rw [hd]; exact hb.2)
    have hstep : scrollSeq h p (n :: rest) = scrollSeq h (scroll_v p n h).1 rest := rfl
    rw [hstep]
    refine ⟨?_, hrec.2.1, ?_⟩
    · rw [hrec.1, hd]
    · have := hrec.2.2
      rw [hd] at this
      exact this

/-- Claim C8: starting from a freshly loaded page (`current_line = 0`),
any sequence of `scroll_v` calls with a fixed viewport height `h > 0`
keeps `current_line` within `[0, max(0, rows − h)]`, and a further call
that would move past a boundary already reached returns `false` and
leaves the state unchanged. -/
theorem scroll_v_sequence_invariant (p : PagePad) (h : Int) (deltas : List Int)
    (hp : p.current_line = 0) (hh : 0 < h) :
    0 ≤ (scrollSeq h p deltas).current_line ∧
      (scrollSeq h p deltas).current_line ≤ max 0 (p.dim.1 - h) ∧
      ((scrollSeq h p deltas).current_line = 0 →
        ∀ n : Int, n < 0 →
          scroll_v (scrollSeq h p deltas) n h = (scrollSeq h p deltas, false)) ∧
      ((scrollSeq h p deltas).current_line = max 0 (p.dim.1 - h) →
        ∀ n : Int, 0 < n →
          scroll_v (scrollSeq h p deltas) n h = (scrollSeq h p deltas, false)) := by
  have hinv := scrollSeq_inv h deltas p (by omega) (by rw [hp]; exact le_max_left 0 _)
  refine ⟨hinv.2.1, hinv.2.2, ?_, ?_⟩
  · intro h0 n hn
    simp only [scroll_v, if_pos hn]
    rw [h0]
    simp
  · intro hb n hn
    have hnn : ¬ n < 0 := by omega
    have hnc : ¬ ((scrollSeq h p deltas).current_line <
        (scrollSeq h p deltas).dim.1 - h) := by
      rw [hb, hinv.1]
      omega
    simp only [scroll_v, if_neg hnn, if_neg hnc]

/-- Claim C8 (witness). -/
theorem scroll_v_sequence_invariant_witness :
    (PagePad.init 10).current_line = 0 ∧ (0 : Int) < 2 ∧
      (0 ≤ (scrollSeq 2 (PagePad.init 10) [5, -1, 100]).current_line ∧
        (scrollSeq 2 (PagePad.init 10) [5, -1, 100]).current_line ≤
          max 0 ((PagePad.init 10).dim.1 - 2) ∧
        ((scrollSeq 2 (PagePad.init 10) [5, -1, 100]).current_line = 0 →
          ∀ n : Int, n < 0 →
            scroll_v (scrollSeq 2 (PagePad.init 10) [5, -1, 100]) n 2 =
              (scrollSeq 2 (PagePad.init 10) [5, -1, 100], false)) ∧
        ((scrollSeq 2 (PagePad.init 10) [5, -1, 100]).current_line =
            max 0 ((PagePad.init 10).dim.1 - 2) →
          ∀ n : Int, 0 < n →
            scroll_v (scrollSeq 2 (PagePad.init 10) [5, -1, 100]) n 2 =
              (scrollSeq 2 (PagePad.init 10) [5, -1, 100], false))) :=
  ⟨rfl, by decide,
    scroll_v_sequence_invariant (PagePad.init 10) 2 [5, -1, 100] rfl (by decide)⟩

end Bebop


